import Mathlib

/-!
# Verification of the bsd-socker capture engine

Shallow embedding of `src/bsdsocker.c`: the BPF record alignment macro,
the packed-record buffer walk of `sniff`, the device probing loop of
`initializeDevice`, the outer capture loop, and `signalHandler`.

Buffers are lists of bytes; reading past the end of the read region
yields `0`, matching the `memset` that clears the capture buffer before
every `read`.  Machine reads of the `struct bpf_hdr` fields are modelled
little-endian at their 64-bit BSD offsets: `bh_caplen` (u32) at byte 8,
`bh_hdrlen` (u16) at byte 16, so a full header spans 18 bytes.
-/

namespace BsdSocker

/-- Kernel record alignment unit (`BPF_ALIGNMENT`); 8 bytes on the 64-bit
BSD platform targeted by the program, as documented by its examples. -/
def BPF_ALIGNMENT : Nat := 8

/-- `BPF_WORDALIGN(x) = (((x)+(BPF_ALIGNMENT-1))&~(BPF_ALIGNMENT-1))`:
round `x` up to a multiple of `BPF_ALIGNMENT` by clearing the low bits of
`x + (BPF_ALIGNMENT - 1)`. -/
def BPF_WORDALIGN (x : Nat) : Nat :=
  (x + (BPF_ALIGNMENT - 1)) - (x + (BPF_ALIGNMENT - 1)) % BPF_ALIGNMENT

/-- Read one byte of the capture buffer; offsets past the data read are
`0` because the buffer is `memset` to zero before each `read`. -/
def getByte (buf : List Nat) (i : Nat) : Nat := buf.getD i 0

/-- Little-endian 16-bit load at `off`. -/
def readU16le (buf : List Nat) (off : Nat) : Nat :=
  getByte buf off + 256 * getByte buf (off + 1)

/-- Little-endian 32-bit load at `off`. -/
def readU32le (buf : List Nat) (off : Nat) : Nat :=
  getByte buf off + 256 * getByte buf (off + 1) +
    65536 * getByte buf (off + 2) + 16777216 * getByte buf (off + 3)

/-- `bpf_packet->bh_caplen`: u32 field at byte offset 8 of the record
header that starts at `p`. -/
def bh_caplen (buf : List Nat) (p : Nat) : Nat := readU32le buf (p + 8)

/-- `bpf_packet->bh_hdrlen`: u16 field at byte offset 16 of the record
header that starts at `p`. -/
def bh_hdrlen (buf : List Nat) (p : Nat) : Nat := readU16le buf (p + 16)

/-- One call to the frame sink (`EthernetFrame_output`): offset of the
frame payload in the buffer, and the captured length passed along. -/
structure Dispatch where
  payloadOff : Nat
  caplen : Nat
deriving DecidableEq, Repr

/-- The inner loop of `sniff` (lines 177-191): starting from cursor `c`,
while `c < n`, parse the header at `c`, dispatch
`(c + bh_hdrlen, bh_caplen)` to the sink, and advance the cursor by
`BPF_WORDALIGN (bh_hdrlen + bh_caplen)`.  `fuel` bounds the number of
modelled steps; the result is the list of dispatches in order, the
cursor reached, and whether the loop exited (`true`) or the fuel ran out
with the loop still live (`false`). -/
def walkAux (buf : List Nat) (n : Nat) : Nat → Nat → List Dispatch × Nat × Bool
  | 0, c => ([], c, false)
  | fuel + 1, c =>
    if c < n then
      let h := bh_hdrlen buf c
      let cl := bh_caplen buf c
      let rest := walkAux buf n fuel (c + BPF_WORDALIGN (h + cl))
      (⟨c + h, cl⟩ :: rest.1, rest.2)
    else ([], c, true)

/-- The cursor values at which the walk's loop body runs (each one is an
offset where a header is parsed). -/
def walkCursors (buf : List Nat) (n : Nat) : Nat → Nat → List Nat
  | 0, _ => []
  | fuel + 1, c =>
    if c < n then
      c :: walkCursors buf n fuel
        (c + BPF_WORDALIGN (bh_hdrlen buf c + bh_caplen buf c))
    else []

/-- Byte offsets the loop body reads when it parses the header at cursor
`c`: the four `bh_caplen` bytes and the two `bh_hdrlen` bytes. -/
def headerReadOffsets (c : Nat) : List Nat :=
  [c + 8, c + 9, c + 10, c + 11, c + 16, c + 17]

/-- An 18-byte `bpf_hdr` with the given captured length and header
length 18 (timestamp and data-length bytes zero). -/
def mkHdr18 (caplen : Nat) : List Nat :=
  [0, 0, 0, 0, 0, 0, 0, 0, caplen % 256, caplen / 256 % 256,
   caplen / 65536 % 256, caplen / 16777216 % 256, 0, 0, 0, 0, 18, 0]

/-- 96-byte buffer: record A (hdrlen 18, caplen 46, aligned total 64)
followed by record B (hdrlen 18, caplen 10, raw 28 padded to 32). -/
def buf96 : List Nat :=
  mkHdr18 46 ++ List.replicate 46 170 ++
    mkHdr18 10 ++ List.replicate 10 187 ++ List.replicate 4 0

/-- 70-byte read result: record A (hdrlen 18, caplen 46, aligned total
64) followed by 6 trailing bytes, too few for another header. -/
def buf70 : List Nat :=
  mkHdr18 46 ++ List.replicate 46 170 ++ List.replicate 6 204

/-- A read result whose first record declares header length 0 and
captured length 0 (all bytes zero). -/
def bufZeroRecord : List Nat := List.replicate 18 0

/-- A buffer of `1`-bytes: every header parse in it yields a positive
record length, so every step of a walk over it advances the cursor. -/
def allOnes32 : List Nat := List.replicate 32 1

/-- Observable actions of the capture loop: a `read` call returning
`n`, or one frame handed to the sink (`EthernetFrame_output`). -/
inductive Event where
  | readCall (n : Int)
  | dispatch (payloadOff caplen : Nat)
deriving DecidableEq, Repr

/-- The outer loop of `sniff` (lines 166-193), driven by a schedule:
entry `(run, r, buf)` gives the value of `running` observed at the top
of the iteration, and the result and contents the `read` call would
produce.  If `running` is observed false the loop returns at once;
otherwise it reads, and walks the buffer only when the read returned a
positive count.  The result is the trace of events, in order. -/
def sniffLoop : List (Bool × Int × List Nat) → List Event
  | [] => []
  | (run, r, buf) :: rest =>
    if run then
      if 0 < r then
        Event.readCall r ::
          ((walkAux buf r.toNat (r.toNat + 1) 0).1.map
            (fun d => Event.dispatch d.payloadOff d.caplen) ++ sniffLoop rest)
      else
        Event.readCall r :: sniffLoop rest
    else []

/-- The process state touched by `signalHandler`: the `running` flag and
whether `signalHandler` is currently installed for `SIGINT`. -/
structure ProcState where
  running : Bool
  sigintHandlerInstalled : Bool
deriving DecidableEq, Repr

/-- `SIGINT`'s signal number. -/
def SIGINT : Nat := 2

/-- `signalHandler` (lines 212-227): first re-register itself for
`SIGINT`, then clear `running` if the delivered signal is `SIGINT` and
do nothing otherwise. -/
def signalHandler (sig_num : Nat) (s : ProcState) : ProcState :=
  let s1 : ProcState := { s with sigintHandlerInstalled := true }
  if sig_num = SIGINT then { s1 with running := false } else s1

/-- One asynchronous delivery of signal `sig` under System-V semantics:
the kernel resets the disposition to default before running the
handler, then `signalHandler` executes. -/
def deliverSignal (sig : Nat) (s : ProcState) : ProcState :=
  signalHandler sig { s with sigintHandlerInstalled := false }

/-- If every possible header parse below `n` yields a positive aligned
advance, the walk exits once the fuel covers the remaining distance. -/
lemma walkAux_done_of_pos (buf : List Nat) (n : Nat)
    (hpos : ∀ c, c < n → 0 < BPF_WORDALIGN (bh_hdrlen buf c + bh_caplen buf c)) :
    ∀ fuel c, n ≤ c + fuel → (walkAux buf n (fuel + 1) c).2.2 = true := by
  intro fuel
  induction fuel with
  | zero =>
      intro c hc
      have h : ¬ c < n := by omega
      simp [walkAux, h]
  | succ f ih =>
      intro c hc
      by_cases h : c < n
      · have hadv := hpos c h
        simp only [walkAux, if_pos h]
        exact ih (c + BPF_WORDALIGN (bh_hdrlen buf c + bh_caplen buf c)) (by omega)
      · simp [walkAux, h]

/-- A parsed record with zero aligned length pins the cursor: from such
a cursor the walk neither advances nor exits, whatever the fuel. -/
lemma walkAux_stuck (buf : List Nat) (n c : Nat) (hc : c < n)
    (h0 : BPF_WORDALIGN (bh_hdrlen buf c + bh_caplen buf c) = 0) :
    ∀ fuel, (walkAux buf n fuel c).2.1 = c ∧ (walkAux buf n fuel c).2.2 = false := by
  intro fuel
  induction fuel with
  | zero => simp [walkAux]
  | succ f ih =>
      simp only [walkAux, if_pos hc, h0, Nat.add_zero]
      exact ih

/-- Result of one `open("/dev/bpf%u", O_RDWR | O_NONBLOCK)` attempt:
a file descriptor, or a failure with the resulting `errno`. -/
inductive OpenOutcome where
  | ok (fd : Nat)
  | err (errno : Nat)
deriving DecidableEq, Repr

/-- `errno` value for a permission failure. -/
def EACCES : Nat := 13

/-- Outcome of the probing loop of `initializeDevice` (lines 98-120):
an opened device at some index, a fatal permission abort, or a fatal
exhaustion of all indices carrying the last `errno` observed. -/
inductive InitResult where
  | opened (index fd : Nat)
  | permissionDenied
  | deviceUnavailable (lastErrno : Nat)
deriving DecidableEq, Repr

/-- The probing loop from index `i` with `remaining` indices left and
the `errno` of the last failed attempt: open `/dev/bpf<i>`; stop on the
first success; abort at once on `EACCES`; otherwise try the next index;
when all indices fail, report the last error.  Returns the outcome and
the list of indices attempted, in order. -/
def probeAux (openDev : Nat → OpenOutcome) : Nat → Nat → Nat → InitResult × List Nat
  | _, 0, lastErr => (.deviceUnavailable lastErr, [])
  | i, remaining + 1, _ =>
    match openDev i with
    | .ok fd => (.opened i fd, [i])
    | .err e =>
      if e = EACCES then (.permissionDenied, [i])
      else
        let rest := probeAux openDev (i + 1) remaining e
        (rest.1, i :: rest.2)

/-- `initializeDevice`'s device probing, over an environment `openDev`
giving each index's open outcome and the build-time device bound. -/
def initializeDevice (openDev : Nat → OpenOutcome) (maxDevices : Nat) :
    InitResult × List Nat :=
  probeAux openDev 0 maxDevices 0

/-- If the `k` indices from `i` fail without a permission error and
index `i + k` opens, probing from `i` stops there, having attempted
exactly the indices `i, …, i + k`. -/
lemma probeAux_found (openDev : Nat → OpenOutcome) (fd : Nat) :
    ∀ (k i remaining lastErr : Nat), k < remaining →
    (∀ j, j < k → ∃ e, openDev (i + j) = .err e ∧ e ≠ EACCES) →
    openDev (i + k) = .ok fd →
    probeAux openDev i remaining lastErr = (.opened (i + k) fd, List.range' i (k + 1)) := by
  intro k
  induction k with
  | zero =>
      intro i remaining lastErr hk _ hopen
      cases remaining with
      | zero => omega
      | succ r =>
          simp only [probeAux]
          rw [show openDev i = .ok fd from by simpa using hopen]
          simp [List.range']
  | succ k ih =>
      intro i remaining lastErr hk hall hopen
      cases remaining with
      | zero => omega
      | succ r =>
          obtain ⟨e, he, hne⟩ := hall 0 (by omega)
          have he' : openDev i = .err e := by simpa using he
          simp only [probeAux, he', hne, if_false]
          have hall' : ∀ j, j < k → ∃ e, openDev (i + 1 + j) = .err e ∧ e ≠ EACCES := by
            intro j hj
            obtain ⟨e', he', hne'⟩ := hall (j + 1) (by omega)
            exact ⟨e', by rw [show i + 1 + j = i + (j + 1) from by omega]; exact he', hne'⟩
          rw [ih (i + 1) r e (by omega) hall'
            (by rw [show i + 1 + k = i + (k + 1) from by omega]; exact hopen)]
          simp [List.range']
          omega

/-- If the `k` indices from `i` fail without a permission error and
index `i + k` fails with `EACCES`, probing from `i` aborts with
`permissionDenied`, having attempted exactly the indices `i, …, i + k`. -/
lemma probeAux_perm (openDev : Nat → OpenOutcome) :
    ∀ (k i remaining lastErr : Nat), k < remaining →
    (∀ j, j < k → ∃ e, openDev (i + j) = .err e ∧ e ≠ EACCES) →
    openDev (i + k) = .err EACCES →
    probeAux openDev i remaining lastErr = (.permissionDenied, List.range' i (k + 1)) := by
  intro k
  induction k with
  | zero =>
      intro i remaining lastErr hk _ hopen
      cases remaining with
      | zero => omega
      | succ r =>
          simp only [probeAux]
          rw [show openDev i = .err EACCES from by simpa using hopen]
          simp [List.range']
  | succ k ih =>
      intro i remaining lastErr hk hall hopen
      cases remaining with
      | zero => omega
      | succ r =>
          obtain ⟨e, he, hne⟩ := hall 0 (by omega)
          have he' : openDev i = .err e := by simpa using he
          simp only [probeAux, he', hne, if_false]
          have hall' : ∀ j, j < k → ∃ e, openDev (i + 1 + j) = .err e ∧ e ≠ EACCES := by
            intro j hj
            obtain ⟨e', he', hne'⟩ := hall (j + 1) (by omega)
            exact ⟨e', by rw [show i + 1 + j = i + (j + 1) from by omega]; exact he', hne'⟩
          rw [ih (i + 1) r e (by omega) hall'
            (by rw [show i + 1 + k = i + (k + 1) from by omega]; exact hopen)]
          simp [List.range']

/-- If every probed index fails without a permission error, probing
reports `deviceUnavailable` with the last attempt's error, having
attempted every index. -/
lemma probeAux_exhaust (openDev : Nat → OpenOutcome) (errOf : Nat → Nat) :
    ∀ (remaining i lastErr : Nat), 0 < remaining →
    (∀ j, j < remaining → openDev (i + j) = .err (errOf (i + j)) ∧ errOf (i + j) ≠ EACCES) →
    probeAux openDev i remaining lastErr =
      (.deviceUnavailable (errOf (i + remaining - 1)), List.range' i remaining) := by
  intro remaining
  induction remaining with
  | zero => omega
  | succ r ih =>
      intro i lastErr _ hall
      obtain ⟨he, hne⟩ := hall 0 (by omega)
      have he' : openDev i = .err (errOf i) := by simpa using he
      have hne' : errOf i ≠ EACCES := by simpa using hne
      simp only [probeAux, he', hne', if_false]
      cases r with
      | zero => simp [probeAux, List.range']
      | succ r' =>
          have hall' : ∀ j, j < r' + 1 →
              openDev (i + 1 + j) = .err (errOf (i + 1 + j)) ∧ errOf (i + 1 + j) ≠ EACCES := by
            intro j hj
            have := hall (j + 1) (by omega)
            rwa [show i + (j + 1) = i + 1 + j from by omega] at this
          rw [ih (i + 1) (errOf i) (by omega) hall']
          refine congrArg₂ Prod.mk ?_ ?_
          · exact congrArg InitResult.deviceUnavailable (congrArg errOf (by omega))
          · simp [List.range']

end BsdSocker

namespace BsdSocker

/-- C3: for every non-negative input, `BPF_WORDALIGN` is idempotent and
monotonic with `x ≤ wordAlign x < x + BPF_ALIGNMENT`; with the 8-byte
alignment unit, `wordAlign 18 = 24` and `wordAlign 24 = 24`. -/
theorem wordAlign_idempotent_monotonic :
    (∀ x : Nat, BPF_WORDALIGN (BPF_WORDALIGN x) = BPF_WORDALIGN x ∧
      x ≤ BPF_WORDALIGN x ∧ BPF_WORDALIGN x < x + BPF_ALIGNMENT) ∧
    BPF_WORDALIGN 18 = 24 ∧ BPF_WORDALIGN 24 = 24 := by
  refine ⟨fun x => ?_, by decide, by decide⟩
  unfold BPF_WORDALIGN BPF_ALIGNMENT
  omega

/-- C1: on the 96-byte read containing record A (header 18, captured 46,
aligned 64) then record B (header 18, captured 10, aligned 32), the walk
dispatches exactly twice, at payload offsets 18 and 82 with captured
lengths 46 and 10, exits, and the final cursor is 96. -/
theorem sniff_walk_two_records :
    walkAux buf96 96 3 0 = ([⟨18, 46⟩, ⟨82, 10⟩], 96, true) := by decide

/-- C2 fails on the code: on the 70-byte read (one aligned 64-byte
record plus 6 trailing bytes) the loop body runs again at cursor 64 and
its header parse reads byte offsets 72-75 and 80-81, all at or beyond
the 70 bytes read; moreover the walk never exits on this input. -/
theorem sniff_walk_reads_past_read_bytes :
    walkCursors buf70 70 2 0 = [0, 64] ∧
    headerReadOffsets 64 = [72, 73, 74, 75, 80, 81] ∧
    (∀ off ∈ headerReadOffsets 64, 70 ≤ off) ∧
    (∀ fuel, (walkAux buf70 70 fuel 0).2.2 = false) := by
  refine ⟨by decide, by decide, by decide, fun fuel => ?_⟩
  cases fuel with
  | zero => rfl
  | succ f =>
      have h64 : (walkAux buf70 70 f 64).2.1 = 64 ∧ (walkAux buf70 70 f 64).2.2 = false :=
        walkAux_stuck buf70 70 64 (by decide) (by decide) f
      simpa [walkAux, show bh_hdrlen buf70 0 = 18 from by decide,
        show bh_caplen buf70 0 = 46 from by decide,
        show BPF_WORDALIGN 64 = 64 from by decide] using h64.2

/-- C9: a parsed record whose aligned length is zero pins the cursor so
the walk never exits; conversely, if every header parse below `n` has a
positive aligned length the walk exits; on the all-zero record buffer
the header and captured lengths parse to 0, the cursor stays at 0, and
the walk never exits. -/
theorem sniff_walk_termination :
    (∀ (buf : List Nat) (n c : Nat), c < n →
      BPF_WORDALIGN (bh_hdrlen buf c + bh_caplen buf c) = 0 →
      ∀ fuel, (walkAux buf n fuel c).2.1 = c ∧ (walkAux buf n fuel c).2.2 = false) ∧
    (∀ (buf : List Nat) (n : Nat),
      (∀ c, c < n → 0 < BPF_WORDALIGN (bh_hdrlen buf c + bh_caplen buf c)) →
      ∃ fuel, (walkAux buf n fuel 0).2.2 = true) ∧
    (bh_hdrlen bufZeroRecord 0 = 0 ∧ bh_caplen bufZeroRecord 0 = 0 ∧
      ∀ fuel, (walkAux bufZeroRecord 18 fuel 0).2.1 = 0 ∧
        (walkAux bufZeroRecord 18 fuel 0).2.2 = false) :=
  ⟨fun buf n c hc h0 => walkAux_stuck buf n c hc h0,
   fun buf n hpos => ⟨n + 1, walkAux_done_of_pos buf n hpos n 0 (by omega)⟩,
   by decide, by decide,
   fun fuel => walkAux_stuck bufZeroRecord 18 0 (by decide) (by decide) fuel⟩

/-- Witness for C9 at concrete inputs: the all-ones buffer satisfies the
positive-advance precondition and its walk exits; the all-zero record
buffer is stuck at cursor 0. -/
theorem sniff_walk_termination_witness :
    (∀ c, c < 8 → 0 < BPF_WORDALIGN (bh_hdrlen allOnes32 c + bh_caplen allOnes32 c)) ∧
    (∃ fuel, (walkAux allOnes32 8 fuel 0).2.2 = true) ∧
    ((walkAux bufZeroRecord 18 5 0).2.1 = 0 ∧ (walkAux bufZeroRecord 18 5 0).2.2 = false) :=
  ⟨by decide, sniff_walk_termination.2.1 allOnes32 8 (by decide),
   sniff_walk_termination.1 bufZeroRecord 18 0 (by decide) (by decide) 5⟩

/-- C4: if the attempts before index `k` fail without a permission error
and the attempt at `k` fails with `EACCES`, probing aborts with
`permissionDenied` and the attempted indices are exactly `0, …, k`. -/
theorem initializeDevice_permission_short_circuit
    (openDev : Nat → OpenOutcome) (maxDevices k : Nat)
    (hk : k < maxDevices)
    (hbefore : ∀ j, j < k → ∃ e, openDev j = .err e ∧ e ≠ EACCES)
    (hperm : openDev k = .err EACCES) :
    initializeDevice openDev maxDevices = (.permissionDenied, List.range (k + 1)) := by
  have h := probeAux_perm openDev k 0 maxDevices 0 hk
    (by simpa using hbefore) (by simpa using hperm)
  simpa [initializeDevice, List.range_eq_range'] using h

/-- Witness environment for C4: index 0 fails with `ENOENT` (2), every
later index fails with `EACCES`. -/
def openEnvPerm : Nat → OpenOutcome := fun i => if i = 0 then .err 2 else .err EACCES

/-- Witness for C4: in `openEnvPerm` with 4 devices, probing aborts with
`permissionDenied` after attempting exactly indices 0 and 1. -/
theorem initializeDevice_permission_short_circuit_witness :
    initializeDevice openEnvPerm 4 = (.permissionDenied, [0, 1]) := by
  have h := initializeDevice_permission_short_circuit openEnvPerm 4 1 (by decide)
    (fun j hj => ⟨2, by
      have hj0 : j = 0 := by omega
      subst hj0
      exact ⟨rfl, by decide⟩⟩)
    (by decide)
  simpa using h

/-- C5: probing tries indices in ascending order and stops at the first
success: if indices below `k` fail without a permission error and `k`
opens, the result is a device at index `k` with exactly `0, …, k`
attempted; if every index fails without a permission error, the result
is `deviceUnavailable` carrying the last attempt's error, with every
index attempted. -/
theorem initializeDevice_probe_order :
    (∀ (openDev : Nat → OpenOutcome) (maxDevices k fd : Nat),
      k < maxDevices →
      (∀ j, j < k → ∃ e, openDev j = .err e ∧ e ≠ EACCES) →
      openDev k = .ok fd →
      initializeDevice openDev maxDevices = (.opened k fd, List.range (k + 1))) ∧
    (∀ (openDev : Nat → OpenOutcome) (errOf : Nat → Nat) (maxDevices : Nat),
      0 < maxDevices →
      (∀ j, j < maxDevices → openDev j = .err (errOf j) ∧ errOf j ≠ EACCES) →
      initializeDevice openDev maxDevices =
        (.deviceUnavailable (errOf (maxDevices - 1)), List.range maxDevices)) := by
  constructor
  · intro openDev maxDevices k fd hk hbefore hopen
    have h := probeAux_found openDev fd k 0 maxDevices 0 hk
      (by simpa using hbefore) (by simpa using hopen)
    simpa [initializeDevice, List.range_eq_range'] using h
  · intro openDev errOf maxDevices hpos hall
    have h := probeAux_exhaust openDev errOf maxDevices 0 0 hpos (by simpa using hall)
    simpa [initializeDevice, List.range_eq_range'] using h

/-- Witness environment for C5's success case: indices 0 and 1 fail with
`ENOENT` (2), index 2 opens with descriptor 5. -/
def openEnvFound : Nat → OpenOutcome := fun i => if i = 2 then .ok 5 else .err 2

/-- Witness environment for C5's exhaustion case: index `i` fails with
error `20 + i`, never a permission error. -/
def openEnvExhaust : Nat → OpenOutcome := fun i => .err (20 + i)

/-- Witness for C5: in `openEnvFound` with 4 devices, probing opens
index 2 after attempting 0, 1, 2; in `openEnvExhaust` with 3 devices it
exhausts all indices and reports the last attempt's error 22. -/
theorem initializeDevice_probe_order_witness :
    initializeDevice openEnvFound 4 = (.opened 2 5, [0, 1, 2]) ∧
    initializeDevice openEnvExhaust 3 = (.deviceUnavailable 22, [0, 1, 2]) := by
  constructor
  · have h := initializeDevice_probe_order.1 openEnvFound 4 2 5 (by decide)
      (fun j hj => ⟨2, by
        have : j ≠ 2 := by omega
        simp [openEnvFound, this]
        decide⟩)
      (by decide)
    simpa using h
  · have h := initializeDevice_probe_order.2 openEnvExhaust (fun i => 20 + i) 3 (by decide)
      (fun j hj => ⟨rfl, by simp [EACCES]; omega⟩)
    simpa using h

/-- C6: an iteration that observes `running = false` performs no read
and returns at once, and whatever schedule would have followed a
false observation contributes no events: the loop never starts an
iteration in a stopped state. -/
theorem sniffLoop_stops_when_not_running :
    (∀ (r : Int) (buf : List Nat) (rest : List (Bool × Int × List Nat)),
      sniffLoop ((false, r, buf) :: rest) = []) ∧
    (∀ (pre : List (Bool × Int × List Nat)) (r : Int) (buf : List Nat)
      (post : List (Bool × Int × List Nat)),
      sniffLoop (pre ++ (false, r, buf) :: post) = sniffLoop pre) := by
  refine ⟨fun r buf rest => by simp [sniffLoop], ?_⟩
  intro pre r buf post
  induction pre with
  | nil => simp [sniffLoop]
  | cons hd tl ih =>
      obtain ⟨run, rr, bb⟩ := hd
      cases run <;> simp [sniffLoop, ih]

/-- C7: an iteration whose read returns a non-positive count emits the
read call, invokes the sink on nothing, and continues with the rest of
the schedule instead of terminating the loop. -/
theorem sniffLoop_nonpositive_read_continues
    (r : Int) (buf : List Nat) (rest : List (Bool × Int × List Nat)) (h : r ≤ 0) :
    sniffLoop ((true, r, buf) :: rest) = Event.readCall r :: sniffLoop rest := by
  simp [sniffLoop, show ¬ 0 < r from by omega]

/-- Witness for C7: a single-iteration schedule whose read returns 0
produces only the read event and no dispatch. -/
theorem sniffLoop_nonpositive_read_continues_witness :
    sniffLoop [(true, 0, [])] = [Event.readCall 0] :=
  sniffLoop_nonpositive_read_continues 0 [] [] (by decide)

/-- C8: from any process state, a `SIGINT` delivery clears `running`
and leaves the handler installed, and so does a second delivery made
after the kernel has reset the disposition. -/
theorem signalHandler_sets_flag_and_rearms (s : ProcState) :
    (deliverSignal SIGINT s).running = false ∧
    (deliverSignal SIGINT s).sigintHandlerInstalled = true ∧
    (deliverSignal SIGINT (deliverSignal SIGINT s)).running = false ∧
    (deliverSignal SIGINT (deliverSignal SIGINT s)).sigintHandlerInstalled = true := by
  simp [deliverSignal, signalHandler]

/-- C10: invoking `signalHandler` with any signal other than `SIGINT`
leaves `running` unchanged while still re-registering the handler. -/
theorem signalHandler_other_signal_frame (sig : Nat) (s : ProcState)
    (h : sig ≠ SIGINT) :
    (signalHandler sig s).running = s.running ∧
    (signalHandler sig s).sigintHandlerInstalled = true := by
  simp [signalHandler, h]

/-- Witness for C10: signal 15 (`SIGTERM`) leaves `running` true and
re-registers the handler. -/
theorem signalHandler_other_signal_frame_witness :
    (signalHandler 15 ⟨true, false⟩).running = true ∧
    (signalHandler 15 ⟨true, false⟩).sigintHandlerInstalled = true :=
  signalHandler_other_signal_frame 15 ⟨true, false⟩ (by decide)

end BsdSocker
